import Mathlib

/-!
Shallow embedding of the `status` crate (structured error container with a
public/private cause visibility model).

Modelling conventions:
* A boxed `dyn Error` value is `ErrorVal`: its `Display` string together with
  what its own `Error::source` method returns.  Being an inductive type, the
  cause graph is acyclic by construction.
* Rust formatters (`writeln!` sequences) are modelled as functions appending
  to a string buffer; `writeln!(f, "{}", x)` appends `display x ++ "\n"`.
* Builder methods that consume and return `self` become functions
  `Status K C → ... → Status K C`.
* `AdhocContext`'s `indexmap::IndexMap<&str, Box<dyn AdhocValue>>` is an
  association list with unique keys; a boxed value is erased to its `Display`
  string (the only capability the crate uses).
-/

namespace StatusSpec

/-- A type-erased `dyn Error + 'static`: its `Display` rendering plus what its
own `Error::source()` returns (`leaf` = no source, `node` = some source). -/
inductive ErrorVal : Type where
  | leaf : String → ErrorVal
  | node : String → ErrorVal → ErrorVal
deriving DecidableEq, Repr

/-- The `Display` rendering of a `dyn Error`. -/
def ErrorVal.display : ErrorVal → String
  | .leaf d => d
  | .node d _ => d

/-- What `Error::source()` returns on this error. -/
def ErrorVal.src : ErrorVal → Option ErrorVal
  | .leaf _ => none
  | .node _ s => some s

/-- Build an erased error from a display string and an optional source. -/
def ErrorVal.ofParts (d : String) : Option ErrorVal → ErrorVal
  | none => .leaf d
  | some s => .node d s

/-- `chain.rs`: the `Chain` iterator state, one borrowed `next` pointer. -/
structure Chain : Type where
  next : Option ErrorVal
deriving DecidableEq, Repr

/-- `Chain::new(next)`. -/
def Chain.new (next : Option ErrorVal) : Chain := ⟨next⟩

/-- `Iterator::next` for `Chain` (`chain.rs` lines 34-42): `take` the current
pointer (leaving `None`), and if it was set, advance to that error's own
`source()` and yield it.  Returns the yielded item and the updated iterator. -/
def Chain.step (c : Chain) : Option ErrorVal × Chain :=
  match c.next with
  | none => (none, ⟨none⟩)
  | some e => (some e, ⟨e.src⟩)

/-- The full sequence of errors the `Chain` yields when started at `e`. -/
def chainList : ErrorVal → List ErrorVal
  | .leaf d => [.leaf d]
  | .node d s => .node d s :: chainList s

/-- The full sequence of errors a `Chain` seeded at an optional error yields. -/
def chainFrom : Option ErrorVal → List ErrorVal
  | none => []
  | some e => chainList e

/-- Drain the iterator by calling `next` up to `fuel` times, collecting the
yielded elements (stopping at the first `None`). -/
def Chain.drain (c : Chain) : Nat → List ErrorVal
  | 0 => []
  | fuel + 1 =>
    match c.step with
    | (none, _) => []
    | (some e, c') => e :: c'.drain fuel

/-- Advance the iterator state by calling `next` `n` times, discarding items. -/
def Chain.advance (c : Chain) : Nat → Chain
  | 0 => c
  | n + 1 => (c.step).2.advance n

/-- `status.rs` lines 279-284: the `Source` tri-state held by a `Status`. -/
inductive Source : Type where
  | Public : ErrorVal → Source
  | Private : ErrorVal → Source
  | Empty : Source
deriving DecidableEq, Repr

/-- `Source::public` (`status.rs` lines 287-292). -/
def Source.public : Source → Option ErrorVal
  | .Public e => some e
  | _ => none

/-- `Source::any` (`status.rs` lines 294-299). -/
def Source.any : Source → Option ErrorVal
  | .Public e => some e
  | .Private e => some e
  | .Empty => none

/-- The `Kind` capability set (`kind.rs`): the parts the container uses, namely
`Display`.  (`Copy`/`Clone`/`Send`/`Sync` have no content in the model.) -/
class Kind (K : Type) where
  display : K → String

/-- The `Context` trait (`context.rs` lines 9-15): `Default`, `Display`,
`update` and `is_empty`. -/
class Context (C : Type) where
  default : C
  display : C → String
  update : C → C → C
  is_empty : C → Bool

/-- `StatusDetails<K, C>` (`status.rs` lines 46-51); the `Box` around it in
`Status` is erased (ownership has no content in the model). -/
structure Status (K C : Type) : Type where
  kind : K
  source : Source
  data : C

/-- `Status::new` (`status.rs` lines 63-74): empty `Context`, `Empty` source.
(`U: Into<K>` is modelled as passing the `K` value itself.) -/
def Status.new {K C : Type} [Context C] (kind : K) : Status K C :=
  ⟨kind, Source.Empty, Context.default⟩

/-- `Status::with_source` (`status.rs` lines 76-94): attach a public cause,
replacing any prior `Source`. -/
def Status.with_source {K C : Type} (s : Status K C) (error : ErrorVal) : Status K C :=
  { s with source := Source.Public error }

/-- `Status::with_internal` (`status.rs` lines 96-112): attach a private cause,
replacing any prior `Source`. -/
def Status.with_internal {K C : Type} (s : Status K C) (error : ErrorVal) : Status K C :=
  { s with source := Source.Private error }

/-- `Status::context_with` (`status.rs` lines 114-124): swap a default into the
data slot, apply `context`, swap the result back — net effect `data := f data`. -/
def Status.context_with {K C : Type} (s : Status K C) (f : C → C) : Status K C :=
  { s with data := f s.data }

/-- `Status::context` (`status.rs` lines 126-129). -/
def Status.context {K C : Type} (s : Status K C) : C := s.data

/-- `impl Error for Status` (`status.rs` lines 265-273): `source()` returns the
public cause only. -/
def Status.errSource {K C : Type} (s : Status K C) : Option ErrorVal :=
  s.source.public

/-- `Status::sources` (`status.rs` lines 185-187): a `Chain` seeded at
`Error::source(self)`. -/
def Status.sources {K C : Type} (s : Status K C) : Chain :=
  Chain.new s.errSource

/-- The list of errors `Status::sources` ends up yielding. -/
def Status.sourcesList {K C : Type} (s : Status K C) : List ErrorVal :=
  chainFrom s.sources.next

/-- `Status::root_source` (`status.rs` lines 209-211): the last element of
`sources()`. -/
def Status.root_source {K C : Type} (s : Status K C) : Option ErrorVal :=
  s.sourcesList.getLast?

/-- `impl Display for Status` (`status.rs` lines 240-249) as a formatter
appending to a buffer: `writeln!` the kind, then if the data is non-empty a
blank `writeln!` and a `writeln!` of the data. -/
def Status.fmtInto {K C : Type} [Kind K] [Context C] (s : Status K C) (buf : String) : String :=
  let buf := buf ++ Kind.display s.kind ++ "\n"
  if Context.is_empty s.data then buf
  else buf ++ "\n" ++ Context.display s.data ++ "\n"

/-- The `Display` rendering of a `Status` (formatter run on an empty buffer). -/
def Status.display {K C : Type} [Kind K] [Context C] (s : Status K C) : String :=
  s.fmtInto ""

/-- Box a `Status` as a `dyn Error` cause: the erased view keeps exactly what
the `Error` impl exposes — its `Display` string and its public source. -/
def Status.toError {K C : Type} [Kind K] [Context C] (s : Status K C) : ErrorVal :=
  ErrorVal.ofParts s.display s.errSource

/-- `InternalStatus<K, C>` (`internal.rs` line 28): wraps a `Status` by value. -/
structure InternalStatus (K C : Type) : Type where
  status : Status K C

/-- `Status::into_internal` (`status.rs` lines 235-237). -/
def Status.into_internal {K C : Type} (s : Status K C) : InternalStatus K C :=
  ⟨s⟩

/-- `impl Error for InternalStatus` (`internal.rs` lines 46-54): `source()`
returns the any-visibility cause. -/
def InternalStatus.errSource {K C : Type} (i : InternalStatus K C) : Option ErrorVal :=
  i.status.source.any

/-- `InternalStatus::sources` (`internal.rs` lines 35-38). -/
def InternalStatus.sources {K C : Type} (i : InternalStatus K C) : Chain :=
  Chain.new i.errSource

/-- The list of errors `InternalStatus::sources` ends up yielding. -/
def InternalStatus.sourcesList {K C : Type} (i : InternalStatus K C) : List ErrorVal :=
  chainFrom i.sources.next

/-- `impl Display for InternalStatus` (`internal.rs` lines 40-44):
`writeln!(f, "{}", self.0)` — the wrapped status's `Display` plus a newline. -/
def InternalStatus.display {K C : Type} [Kind K] [Context C] (i : InternalStatus K C) : String :=
  i.status.display ++ "\n"

/-- `Unkind` (`kind.rs` lines 63-65): an opaque `&'static str` kind. -/
structure Unkind : Type where
  inner : String
deriving DecidableEq, Repr

/-- `impl Display for Unkind` (`kind.rs` lines 73-77): `writeln!` the string. -/
instance : Kind Unkind := ⟨fun u => u.inner ++ "\n"⟩

/-- `NoContext` (`context.rs` lines 17-34): always empty, `update` a no-op,
empty `Display`. -/
structure NoContext : Type where
deriving DecidableEq, Repr

instance : Context NoContext :=
  ⟨⟨⟩, fun _ => "", fun s _ => s, fun _ => true⟩

/-- `indexmap::IndexMap::insert` on an association list: if the key is present
its value is updated in place (keeping its position); otherwise the pair is
appended last. -/
def insertKV : List (String × String) → String → String → List (String × String)
  | [], k, v => [(k, v)]
  | (k', v') :: rest, k, v =>
    if k' = k then (k', v) :: rest
    else (k', v') :: insertKV rest k v

/-- `AdhocContext` (`context.rs` lines 43-46): an ordered map from `&'static
str` keys to boxed display-only values (erased to display strings). -/
structure AdhocContext : Type where
  data : List (String × String)
deriving DecidableEq, Repr

/-- `AdhocContext::new` (`context.rs` lines 48-51). -/
def AdhocContext.new : AdhocContext := ⟨[]⟩

/-- `AdhocContext::insert` (`context.rs` lines 67-73). -/
def AdhocContext.insert (c : AdhocContext) (key value : String) : AdhocContext :=
  ⟨insertKV c.data key value⟩

/-- `impl Display for AdhocContext` (`context.rs` lines 76-83): one
`writeln!(f, "{}: {}", k, v)` per entry, in order, into the buffer. -/
def AdhocContext.displayS (c : AdhocContext) : String :=
  c.data.foldl (fun buf kv => buf ++ (kv.1 ++ ": " ++ kv.2 ++ "\n")) ""

/-- `AdhocContext::update` (`context.rs` lines 85-88): `self.data.extend(
replacements.data)` — insert each replacement entry in order. -/
def AdhocContext.update (c replacements : AdhocContext) : AdhocContext :=
  ⟨replacements.data.foldl (fun acc kv => insertKV acc kv.1 kv.2) c.data⟩

/-- `AdhocContext::is_empty` (`context.rs` lines 91-93). -/
def AdhocContext.isEmptyB (c : AdhocContext) : Bool := c.data.isEmpty

/-- `impl Context for AdhocContext` (`context.rs` lines 85-94). -/
instance : Context AdhocContext :=
  ⟨AdhocContext.new, AdhocContext.displayS, AdhocContext.update, AdhocContext.isEmptyB⟩

/-- `impl Debug for TerminatingAlarm` (`term.rs` lines 26-35): `writeln!` the
error's `Display`, then for each element the `Chain` seeded at the error's
declared source yields, a blank `writeln!` and `writeln!("Caused by: {}")`. -/
def termDebug (e : ErrorVal) : String :=
  (chainFrom e.src).foldl
    (fun buf c => buf ++ "\n" ++ ("Caused by: " ++ c.display ++ "\n"))
    (e.display ++ "\n")

/-- Concrete sample: `Status::new("k")` with the prototyping defaults erased to
`NoContext`. -/
def sampleStatus : Status Unkind NoContext := Status.new (Unkind.mk "k")

/-- Concrete sample: `Status::new("k")` with the default `AdhocContext`. -/
def sampleStatusA : Status Unkind AdhocContext := Status.new (Unkind.mk "k")

/-- Concrete sample error displaying as `a`, with no further source. -/
def eA : ErrorVal := ErrorVal.leaf "a"

/-- Concrete sample error displaying as `b`, with no further source. -/
def eB : ErrorVal := ErrorVal.leaf "b"

/-- Concrete sample two-link cause chain `a -> b`. -/
def eAB : ErrorVal := ErrorVal.node "a" (ErrorVal.leaf "b")

/-! ### Helper lemmas about the Chain iterator -/

/-- An exhausted `Chain` yields nothing, whatever the fuel. -/
theorem Chain.drain_none : ∀ n, (Chain.mk none).drain n = []
  | 0 => rfl
  | _ + 1 => rfl

/-- An exhausted `Chain` stays exhausted under any number of `next` calls. -/
theorem Chain.advance_none : ∀ k, (Chain.mk none).advance k = Chain.mk none
  | 0 => rfl
  | k + 1 => Chain.advance_none k

/-- With enough fuel, draining a `Chain` seeded at `e` yields `chainList e`. -/
theorem Chain.drain_of_le (e : ErrorVal) :
    ∀ n, (chainList e).length ≤ n → (Chain.mk (some e)).drain n = chainList e := by
  induction e with
  | leaf d =>
    intro n hn
    match n with
    | 0 => simp [chainList] at hn
    | m + 1 =>
      show ErrorVal.leaf d :: (Chain.mk none).drain m = [ErrorVal.leaf d]
      rw [Chain.drain_none]
  | node d s ih =>
    intro n hn
    match n with
    | 0 => simp [chainList] at hn
    | m + 1 =>
      show ErrorVal.node d s :: (Chain.mk (some s)).drain m
        = ErrorVal.node d s :: chainList s
      rw [ih m (by simp [chainList] at hn; omega)]

/-- After `(chainList e).length` calls to `next`, the `Chain` is exhausted. -/
theorem Chain.advance_full (e : ErrorVal) :
    (Chain.mk (some e)).advance (chainList e).length = Chain.mk none := by
  induction e with
  | leaf d => rfl
  | node d s ih =>
    show (Chain.mk (some s)).advance (chainList s).length = Chain.mk none
    exact ih

/-- The first element a non-empty chain yields is its seed. -/
theorem chainList_head (e : ErrorVal) : (chainList e).head? = some e := by
  cases e <;> rfl

/-! ### Helper lemmas about the ordered key-value context -/

/-- Inserting a key already present keeps the key sequence (hence every key's
position) unchanged. -/
theorem insertKV_keys_of_mem (k v : String) :
    ∀ l : List (String × String), k ∈ l.map Prod.fst →
      (insertKV l k v).map Prod.fst = l.map Prod.fst
  | [], h => by simp at h
  | (k', v') :: rest, h => by
    by_cases hk : k' = k
    · simp [insertKV, hk]
    · have h' : k = k' ∨ ∃ x, (k, x) ∈ rest := by simpa using h
      have h1 : k ∈ rest.map Prod.fst := by
        rcases h' with h1 | h1
        · exact absurd h1.symm hk
        · simpa using h1
      simp [insertKV, hk, insertKV_keys_of_mem k v rest h1]

/-- Inserting a fresh key appends the pair last. -/
theorem insertKV_of_not_mem (k v : String) :
    ∀ l : List (String × String), k ∉ l.map Prod.fst →
      insertKV l k v = l ++ [(k, v)]
  | [], _ => rfl
  | (k', v') :: rest, h => by
    have hk : ¬ k' = k := fun hkk => h (by simp [hkk])
    have h1 : k ∉ rest.map Prod.fst := fun hm => h (by simp [hm])
    simp [insertKV, hk, insertKV_of_not_mem k v rest h1]

/-- After inserting `(k, v)`, looking up `k` finds `v`. -/
theorem lookup_insertKV (k v : String) :
    ∀ l : List (String × String), (insertKV l k v).lookup k = some v
  | [] => by simp [insertKV, List.lookup]
  | (k', v') :: rest => by
    by_cases hk : k' = k
    · subst hk
      simp [insertKV, List.lookup]
    · have hk2 : ¬ k = k' := fun hh => hk hh.symm
      have hb : (k == k') = false := by simp [hk2]
      simp [insertKV, hk, List.lookup, hb, lookup_insertKV k v rest]

/-- A formatter fold commutes with the initial buffer. -/
theorem foldl_append_buf (f : String × String → String) :
    ∀ (l : List (String × String)) (buf : String),
      l.foldl (fun b kv => b ++ f kv) buf
        = buf ++ l.foldl (fun b kv => b ++ f kv) ""
  | [], buf => by simp
  | kv :: rest, buf => by
    rw [List.foldl_cons, List.foldl_cons,
      foldl_append_buf f rest (buf ++ f kv), foldl_append_buf f rest ("" ++ f kv)]
    rw [show ("" : String) ++ f kv = f kv from rfl, String.append_assoc]

/-- `AdhocContext` display renders entries one line each, in order. -/
theorem displayS_cons (k v : String) (rest : List (String × String)) :
    (AdhocContext.mk ((k, v) :: rest)).displayS
      = k ++ ": " ++ v ++ "\n" ++ (AdhocContext.mk rest).displayS := by
  unfold AdhocContext.displayS
  rw [List.foldl_cons,
    foldl_append_buf (fun kv => kv.1 ++ ": " ++ kv.2 ++ "\n") rest]
  rfl

/-! ### Claim theorems -/

/-- Claim C1: for every `Status` `s` and error `e`, `s.with_source(e).sources()
.next()` yields a reference whose `Display` equals `e`'s `Display` (indeed `e`
itself); `s.with_internal(e).sources().next()` is `None` (a private cause is
invisible to the public chain); and `s.with_internal(e).into_internal()
.sources().next()` yields `e`. -/
theorem C1_cause_visibility {K C : Type} (s : Status K C) (e : ErrorVal) :
    (s.with_source e).sources.step.1 = some e ∧
    ((s.with_source e).sources.step.1).map ErrorVal.display = some e.display ∧
    (s.with_internal e).sources.step.1 = none ∧
    ((s.with_internal e).into_internal).sources.step.1 = some e :=
  ⟨rfl, rfl, rfl, rfl⟩

/-- Claim C2: attaching a new cause fully replaces any previous `Source`:
`s.with_source(e1).with_source(e2).sources().next()` yields `e2` (so its
`Display` equals `e2`'s `Display` and — when the two displays differ — never
`e1`'s), regardless of whether the first attachment was public or private. -/
theorem C2_source_replacement {K C : Type} (s : Status K C) (e1 e2 : ErrorVal)
    (hne : e1.display ≠ e2.display) :
    ((s.with_source e1).with_source e2).sources.step.1 = some e2 ∧
    ((s.with_internal e1).with_source e2).sources.step.1 = some e2 ∧
    (((s.with_source e1).with_source e2).sources.step.1).map ErrorVal.display
      = some e2.display ∧
    (((s.with_source e1).with_source e2).sources.step.1).map ErrorVal.display
      ≠ some e1.display := by
  refine ⟨rfl, rfl, rfl, ?_⟩
  intro h
  have h' : (some e2.display : Option String) = some e1.display := h
  exact hne (Option.some.inj h').symm

/-- Witness for C2 at `s = Status::new("k")`, `e1 = a`, `e2 = b`. -/
theorem C2_source_replacement_witness :
    eA.display ≠ eB.display ∧
    (((sampleStatus.with_source eA).with_source eB).sources.step.1 = some eB ∧
     ((sampleStatus.with_internal eA).with_source eB).sources.step.1 = some eB ∧
     (((sampleStatus.with_source eA).with_source eB).sources.step.1).map
         ErrorVal.display = some eB.display ∧
     (((sampleStatus.with_source eA).with_source eB).sources.step.1).map
         ErrorVal.display ≠ some eA.display) :=
  ⟨by decide, C2_source_replacement sampleStatus eA eB (by decide)⟩

/-- Counterexample to claim C3 as stated: at `Status::new("k")` (with
`NoContext`), `into_internal`'s `Display` output is not character-for-character
equal to the status's own `Display` output (the internal view's `Display` is
`writeln!(f, "{}", self.0)`, which appends one extra newline). -/
theorem C3_counterexample :
    (sampleStatus.into_internal).display ≠ sampleStatus.display := by decide

/-- Claim C3 amended: for every `Status` `s`, the `Display` output of
`s.into_internal()` equals the `Display` output of `s` followed by exactly one
additional newline; visibility still does not affect the kind/context text. -/
theorem C3_display_roundtrip {K C : Type} [Kind K] [Context C] (s : Status K C) :
    (s.into_internal).display = s.display ++ "\n" :=
  rfl

/-- Claim C4: for every `Kind` value `k` (and a default `Context` that is
empty, as both provided `Context`s are), `Status::new(k)` has `kind() = k`,
`Empty` source — so `sources()` is immediately exhausted and `root_source()`
is `None` — and the default `Context` with `context().is_empty() = true`. -/
theorem C4_new {K C : Type} [Context C] (k : K)
    (hC : Context.is_empty (Context.default : C) = true) :
    (Status.new k : Status K C).kind = k ∧
    (Status.new k : Status K C).source = Source.Empty ∧
    (Status.new k : Status K C).sourcesList = [] ∧
    ((Status.new k : Status K C).sources).step.1 = none ∧
    (Status.new k : Status K C).root_source = none ∧
    (Status.new k : Status K C).context = (Context.default : C) ∧
    Context.is_empty ((Status.new k : Status K C).context) = true :=
  ⟨rfl, rfl, rfl, rfl, rfl, rfl, hC⟩

/-- Witness for C4 at `k = "k"` with the default `AdhocContext`. -/
theorem C4_new_witness :
    Context.is_empty (Context.default : AdhocContext) = true ∧
    ((Status.new (Unkind.mk "k") : Status Unkind AdhocContext).kind
        = Unkind.mk "k" ∧
     (Status.new (Unkind.mk "k") : Status Unkind AdhocContext).source
        = Source.Empty ∧
     (Status.new (Unkind.mk "k") : Status Unkind AdhocContext).sourcesList = [] ∧
     ((Status.new (Unkind.mk "k") : Status Unkind AdhocContext).sources).step.1
        = none ∧
     (Status.new (Unkind.mk "k") : Status Unkind AdhocContext).root_source
        = none ∧
     (Status.new (Unkind.mk "k") : Status Unkind AdhocContext).context
        = (Context.default : AdhocContext) ∧
     Context.is_empty
        ((Status.new (Unkind.mk "k") : Status Unkind AdhocContext).context)
        = true) :=
  ⟨rfl, C4_new (Unkind.mk "k") rfl⟩

/-- Claim C5: `Display` of a `Status` writes the `Kind`'s display line, then —
iff the `Context` is non-empty — a blank line followed by the `Context`'s own
display output; the wrapped cause (public or private) never appears in the
`Display` output (attaching either kind of cause leaves `Display` unchanged). -/
theorem C5_display_semantics {K C : Type} [Kind K] [Context C]
    (s : Status K C) (e : ErrorVal) :
    s.display
      = (if Context.is_empty s.data
         then Kind.display s.kind ++ "\n"
         else Kind.display s.kind ++ "\n"
              ++ "\n" ++ Context.display s.data ++ "\n") ∧
    (s.with_source e).display = s.display ∧
    (s.with_internal e).display = s.display := by
  refine ⟨?_, rfl, rfl⟩
  unfold Status.display Status.fmtInto
  by_cases h : Context.is_empty s.data = true <;> simp [h]

/-- Claim C10: each builder method modifies exactly one field: `with_source`
and `with_internal` change only the `Source` (kind and context unchanged), and
`context_with(f)` changes only the `Context` to `f` of the previous `Context`
(kind, `Source`, hence `sources()`, unchanged). -/
theorem C10_builder_frame {K C : Type} (s : Status K C) (e : ErrorVal) (f : C → C) :
    (s.with_source e).kind = s.kind ∧
    (s.with_source e).context = s.context ∧
    (s.with_source e).source = Source.Public e ∧
    (s.with_internal e).kind = s.kind ∧
    (s.with_internal e).context = s.context ∧
    (s.with_internal e).source = Source.Private e ∧
    (s.context_with f).kind = s.kind ∧
    (s.context_with f).context = f s.context ∧
    (s.context_with f).source = s.source ∧
    (s.context_with f).sourcesList = s.sourcesList :=
  ⟨rfl, rfl, rfl, rfl, rfl, rfl, rfl, rfl, rfl, rfl⟩

/-- Claim C6: a cause chain whose `source()` links end after depth `N` makes
the `Chain` iterator yield exactly the `N` chain elements and then return
`None` on every subsequent call (permanent exhaustion); `root_source()` on a
`Status` with no public cause returns `None`.  (In this embedding errors are
finite trees, so the acyclicity precondition holds by construction.) -/
theorem C6_chain_termination {K C : Type} (start : Option ErrorVal) (N n k : Nat)
    (hN : (chainFrom start).length = N) (hn : N ≤ n)
    (s : Status K C) (hs : s.errSource = none) :
    (Chain.new start).drain n = chainFrom start ∧
    ((Chain.new start).drain n).length = N ∧
    (((Chain.new start).advance N).advance k).step.1 = none ∧
    s.root_source = none := by
  have h1 : (Chain.new start).drain n = chainFrom start := by
    cases start with
    | none => exact Chain.drain_none n
    | some e =>
      refine Chain.drain_of_le e n ?_
      rw [← hN] at hn
      exact hn
  have h3 : ((Chain.new start).advance N).advance k = Chain.mk none := by
    cases start with
    | none => rw [show Chain.new none = Chain.mk none from rfl,
        Chain.advance_none, Chain.advance_none]
    | some e =>
      have h2 : (Chain.new (some e)).advance N = Chain.mk none := by
        rw [← hN]
        exact Chain.advance_full e
      rw [h2, Chain.advance_none]
  refine ⟨h1, by rw [h1, hN], by rw [h3]; rfl, ?_⟩
  simp [Status.root_source, Status.sourcesList, Status.sources, Chain.new,
    hs, chainFrom]

/-- Witness for C6 at the two-link chain `a -> b` (depth 2), fuel 5, three
extra calls after exhaustion, and `Status::new("k")` (no public cause). -/
theorem C6_chain_termination_witness :
    (chainFrom (some eAB)).length = 2 ∧ 2 ≤ 5 ∧ sampleStatus.errSource = none ∧
    ((Chain.new (some eAB)).drain 5 = chainFrom (some eAB) ∧
     ((Chain.new (some eAB)).drain 5).length = 2 ∧
     (((Chain.new (some eAB)).advance 2).advance 3).step.1 = none ∧
     sampleStatus.root_source = none) :=
  ⟨by decide, by decide, rfl,
   C6_chain_termination (some eAB) 2 5 3 (by decide) (by decide) sampleStatus rfl⟩

/-- Claim C7: for the ordered key-value `AdhocContext`: inserting an existing
key updates its value preserving the key order; inserting a new key appends it
last; `update` extends the base with the replacement's entries, the
replacement winning on key collision (merging contexts with keys `a` then `b`
yields both); and `Display` renders one `key: value` line per entry in order. -/
theorem C7_adhoc_context (l : List (String × String)) (k v va vb w : String) :
    (k ∈ l.map Prod.fst → (insertKV l k v).map Prod.fst = l.map Prod.fst) ∧
    (k ∉ l.map Prod.fst → insertKV l k v = l ++ [(k, v)]) ∧
    (insertKV l k v).lookup k = some v ∧
    ((AdhocContext.new.insert "a" va).update (AdhocContext.new.insert "b" vb)).data
      = [("a", va), ("b", vb)] ∧
    ((AdhocContext.new.insert "a" va).update (AdhocContext.new.insert "a" w)).data
      = [("a", w)] ∧
    (AdhocContext.mk []).displayS = "" ∧
    (AdhocContext.mk ((k, v) :: l)).displayS
      = k ++ ": " ++ v ++ "\n" ++ (AdhocContext.mk l).displayS :=
  ⟨insertKV_keys_of_mem k v l, insertKV_of_not_mem k v l, lookup_insertKV k v l,
   rfl, rfl, rfl, displayS_cons k v l⟩

/-- Witness for C7 at concrete one-entry contexts and keys `a`, `b`. -/
theorem C7_adhoc_context_witness :
    (insertKV [("a", "1")] "a" "2").map Prod.fst = [("a", "1")].map Prod.fst ∧
    insertKV [("a", "1")] "b" "2" = [("a", "1")] ++ [("b", "2")] ∧
    (insertKV [("a", "1")] "a" "2").lookup "a" = some "2" ∧
    ((AdhocContext.new.insert "a" "1").update (AdhocContext.new.insert "b" "2")).data
      = [("a", "1"), ("b", "2")] ∧
    ((AdhocContext.new.insert "a" "1").update (AdhocContext.new.insert "a" "3")).data
      = [("a", "3")] ∧
    (AdhocContext.mk (("a", "1") :: [])).displayS
      = "a" ++ ": " ++ "1" ++ "\n" ++ (AdhocContext.mk []).displayS :=
  ⟨(C7_adhoc_context [("a", "1")] "a" "2" "1" "2" "3").1 (by decide),
   (C7_adhoc_context [("a", "1")] "b" "2" "1" "2" "3").2.1 (by decide),
   (C7_adhoc_context [("a", "1")] "a" "2" "1" "2" "3").2.2.1,
   (C7_adhoc_context [("a", "1")] "a" "2" "1" "2" "3").2.2.2.1,
   (C7_adhoc_context [("a", "1")] "a" "2" "1" "3" "3").2.2.2.2.1,
   (C7_adhoc_context [] "a" "1" "1" "2" "3").2.2.2.2.2.2⟩

/-- Claim C8: the terminating wrapper's debug rendering writes the error's
`Display` line then, for each element the `Chain` seeded at the error's
declared cause yields, a blank line followed by `Caused by: ` plus that
cause's `Display`; nesting two `Status`es via `with_source` produces the outer
`Display` followed by exactly one `Caused by:` block with the inner `Display`. -/
theorem C8_terminating_debug {K C K2 C2 : Type} [Kind K] [Context C]
    [Kind K2] [Context C2] (e : ErrorVal) (n : Nat)
    (hn : (chainFrom e.src).length ≤ n)
    (outer : Status K C) (inner : Status K2 C2) (hi : inner.errSource = none) :
    termDebug e
      = ((Chain.new e.src).drain n).foldl
          (fun buf c => buf ++ "\n" ++ ("Caused by: " ++ c.display ++ "\n"))
          (e.display ++ "\n") ∧
    termDebug ((outer.with_source inner.toError).toError)
      = outer.display ++ "\n" ++ "\n"
        ++ ("Caused by: " ++ inner.display ++ "\n") := by
  constructor
  · have hd : (Chain.new e.src).drain n = chainFrom e.src := by
      cases hsrc : e.src with
      | none => exact Chain.drain_none n
      | some e2 =>
        refine Chain.drain_of_le e2 n ?_
        rw [hsrc] at hn
        exact hn
    rw [hd]
    rfl
  · have hin : inner.toError = ErrorVal.leaf inner.display := by
      simp [Status.toError, hi, ErrorVal.ofParts]
    rw [hin]
    rfl

/-- Witness for C8 at the chain `a -> b` (fuel 5) and two nested copies of
`Status::new("k")`. -/
theorem C8_terminating_debug_witness :
    (chainFrom eAB.src).length ≤ 5 ∧ sampleStatus.errSource = none ∧
    (termDebug eAB
       = ((Chain.new eAB.src).drain 5).foldl
           (fun buf c => buf ++ "\n" ++ ("Caused by: " ++ c.display ++ "\n"))
           (eAB.display ++ "\n") ∧
     termDebug ((sampleStatus.with_source sampleStatus.toError).toError)
       = sampleStatus.display ++ "\n" ++ "\n"
         ++ ("Caused by: " ++ sampleStatus.display ++ "\n")) :=
  ⟨by decide, rfl,
   C8_terminating_debug eAB 5 (by decide) sampleStatus sampleStatus rfl⟩

/-- Claim C9: the internal view changes visibility only at the first chain
step: when a `Status`'s public cause is itself a `Status` carrying a private
cause `e`, `into_internal().sources()` yields the inner status (as a boxed
error) but never `e`, because after the first element the `Chain` advances
through each error's own public `source()` accessor. -/
theorem C9_internal_view_first_step {K C K2 C2 : Type} [Kind K2] [Context C2]
    (s : Status K C) (t : Status K2 C2) (e : ErrorVal)
    (hne : e ≠ (t.with_internal e).toError) :
    ((s.with_source ((t.with_internal e).toError)).into_internal).sourcesList
      = [(t.with_internal e).toError] ∧
    e ∉ ((s.with_source ((t.with_internal e).toError)).into_internal).sourcesList := by
  refine ⟨rfl, ?_⟩
  intro hmem
  have h1 : e ∈ [(t.with_internal e).toError] := hmem
  exact hne (List.mem_singleton.mp h1)

/-- Witness for C9 at `Status::new("k")` (as both statuses) and a private
`io` error. -/
theorem C9_internal_view_first_step_witness :
    ErrorVal.leaf "io" ≠ (sampleStatus.with_internal (ErrorVal.leaf "io")).toError ∧
    (((sampleStatus.with_source
          ((sampleStatus.with_internal (ErrorVal.leaf "io")).toError)).into_internal).sourcesList
        = [(sampleStatus.with_internal (ErrorVal.leaf "io")).toError] ∧
     ErrorVal.leaf "io"
       ∉ ((sampleStatus.with_source
            ((sampleStatus.with_internal (ErrorVal.leaf "io")).toError)).into_internal).sourcesList) :=
  ⟨by decide,
   C9_internal_view_first_step sampleStatus sampleStatus (ErrorVal.leaf "io")
     (by decide)⟩

end StatusSpec
